import Mathlib

/-!
# Verification of the loggergo context-attribute handler and configuration code

Shallow embedding of the Go sources of `wasilak/loggergo`:

* `src/context_handler.go` — `CustomContextAttributeHandler` (the variant with
  panic recovery and nil-context fallback, lines 198–232 of the file):
  `Handle`, `WithAttrs`, `WithGroup`.
* `src/lib/types/config.go` — `Config.Validate`.
* `src/lib/config.go` — `MergeConfig`.
* The v2 initialization orchestrator (`Init`) is not present under `src/`
  (only its tests, example callers and the `InitError` stage taxonomy are),
  so its handler-selection step is modelled from the spec, clearly marked.

Go `interface{}` values (used both as context keys and as context/attribute
values) are embedded as the inductive `GoVal`; a Go `context.Context` is an
association list of key/value pairs with the most recent `WithValue` binding
first; a `slog.Record`'s attribute list is a `List (String × GoVal)`.
Go interface equality panics when both operands hold the same uncomparable
dynamic type (e.g. two slices); this is the runtime-fault channel that the
`Handle` failure boundary has to catch, and it is embedded as `Except.error`.
-/

namespace LoggerGo

/-- Embedding of Go `interface{}` values as used by the context handler:
`nil`, strings, integers, booleans, typed string wrappers (such as
`type contextKey string`), and slices (an uncomparable dynamic type). -/
inductive GoVal where
  | nil : GoVal
  | str (s : String) : GoVal
  | int (n : Int) : GoVal
  | bool (b : Bool) : GoVal
  | typed (tag : String) (s : String) : GoVal
  | slice (elems : List String) : GoVal
deriving DecidableEq, Repr

/-- Whether a value has an uncomparable dynamic type (a slice). -/
def isSlice : GoVal → Bool
  | .slice _ => true
  | _ => false

/-- Go `fmt.Sprintf("%v", x)`: strings and typed string wrappers print their
underlying string, integers and booleans their usual rendering, `nil` prints
`<nil>`, and a slice prints its elements in brackets. -/
def format : GoVal → String
  | .nil => "<nil>"
  | .str s => s
  | .int n => toString n
  | .bool b => if b then "true" else "false"
  | .typed _ s => s
  | .slice es => "[" ++ String.intercalate " " es ++ "]"

/-- Go interface equality `a == b`: if both operands hold the same
uncomparable dynamic type (two slices) the comparison panics, embedded as
`Except.error`; otherwise it returns whether the values are equal
(values of different dynamic types compare unequal without panicking). -/
def goEq (a b : GoVal) : Except String Bool :=
  match a, b with
  | .slice _, .slice _ => .error "runtime error: comparing uncomparable type"
  | _, _ => .ok (a = b)

/-- A Go `context.Context` value chain: the most recent `context.WithValue`
binding first.  `[]` plays the role of `context.Background()`. -/
abbrev Ctx := List (GoVal × GoVal)

/-- `ctx.Value(key)`: walk the chain comparing stored keys against the query
key with Go interface equality; a panic in a comparison propagates, a miss
returns the Go `nil` interface. -/
def ctxValue : Ctx → GoVal → Except String GoVal
  | [], _ => .ok .nil
  | (k, v) :: rest, key =>
    match goEq k key with
    | .error m => .error m
    | .ok true => .ok v
    | .ok false => ctxValue rest key

/-- The attribute list of a `slog.Record`; `Record.Add` appends. -/
abbrev Record := List (String × GoVal)

/-- What a call into a wrapped `slog.Handler` can do: return `nil`, return an
error, or panic. -/
inductive RawResult where
  | ok : RawResult
  | err (msg : String) : RawResult
  | panicked (msg : String) : RawResult
deriving DecidableEq, Repr

/-- A wrapped `slog.Handler`, modelled by its observable response to the
record it is handed: a base sink with a fixed response, plus the nodes that
`WithAttrs` and `WithGroup` produce on it. -/
inductive InnerHandler where
  | sink (res : RawResult) : InnerHandler
  | withAttrsNode (attrs : List (String × GoVal)) (ih : InnerHandler) : InnerHandler
  | withGroupNode (name : String) (ih : InnerHandler) : InnerHandler
deriving DecidableEq, Repr

/-- `innerHandler.WithAttrs(attrs)` on the wrapped handler. -/
def InnerHandler.WithAttrs (ih : InnerHandler) (attrs : List (String × GoVal)) : InnerHandler :=
  .withAttrsNode attrs ih

/-- `innerHandler.WithGroup(name)` on the wrapped handler. -/
def InnerHandler.WithGroup (ih : InnerHandler) (name : String) : InnerHandler :=
  .withGroupNode name ih

/-- `innerHandler.Handle(ctx, record)`: an attrs node contributes its static
attributes before the record's, a group node qualifies the record's attribute
names, and the base sink responds with its fixed result. -/
def innerHandle : InnerHandler → Record → RawResult
  | .sink res, _ => res
  | .withAttrsNode attrs ih, r => innerHandle ih (attrs ++ r)
  | .withGroupNode g ih, r => innerHandle ih (r.map (fun p => (g ++ "." ++ p.1, p.2)))

/-- `CustomContextAttributeHandler` (src/context_handler.go): the wrapped
handler, the configured key set, and the configured default value
(`GoVal.nil` meaning no default, as a Go `nil` interface). -/
structure CustomContextAttributeHandler where
  innerHandler : InnerHandler
  keys : List GoVal
  ContextKeysDefault : GoVal
deriving DecidableEq, Repr

/-- `NewCustomContextAttributeHandler` (src/context_handler.go). -/
def NewCustomContextAttributeHandler (handler : InnerHandler) (keys : List GoVal)
    (contextKeysDefault : GoVal) : CustomContextAttributeHandler :=
  { innerHandler := handler, keys := keys, ContextKeysDefault := contextKeysDefault }

/-- The `for _, key := range h.keys` loop of `Handle`
(src/context_handler.go lines 213–228): look each key up in the context,
append `(fmt.Sprintf("%v", key), value)` on a non-nil hit, append the default
on a miss when one is configured, append nothing otherwise; a panic in the
lookup aborts the loop. -/
def augment : List GoVal → GoVal → Ctx → Record → Except String Record
  | [], _, _, record => .ok record
  | key :: ks, d, ctx, record =>
    match ctxValue ctx key with
    | .error m => .error m
    | .ok val =>
      if val = GoVal.nil then
        if d ≠ GoVal.nil then
          augment ks d ctx (record ++ [(format key, d)])
        else
          augment ks d ctx record
      else
        augment ks d ctx (record ++ [(format key, val)])

/-- The body of `Handle` without the deferred `recover`: substitute
`context.Background()` for a nil context, run the augmentation loop, then
delegate to the wrapped handler.  A panic anywhere surfaces as
`RawResult.panicked`. -/
def handleNoRecover (h : CustomContextAttributeHandler) (ctxOpt : Option Ctx)
    (record : Record) : RawResult :=
  let ctx := ctxOpt.getD []
  match augment h.keys h.ContextKeysDefault ctx record with
  | .error m => .panicked m
  | .ok augmented => innerHandle h.innerHandler augmented

/-- The result `Handle` returns to its caller: success or an error value. -/
inductive Outcome where
  | ok : Outcome
  | err (msg : String) : Outcome
deriving DecidableEq, Repr

/-- The deferred `recover` block of `Handle` (src/context_handler.go lines
200–206): a panic is converted into the returned error
`"panic in Handle: <msg>"`; plain results pass through. -/
def recoverResult : RawResult → Outcome
  | .ok => .ok
  | .err m => .err m
  | .panicked m => .err ("panic in Handle: " ++ m)

/-- `Handle` (src/context_handler.go lines 198–232): the body wrapped in the
panic-recovery boundary. -/
def Handle (h : CustomContextAttributeHandler) (ctxOpt : Option Ctx)
    (record : Record) : Outcome :=
  recoverResult (handleNoRecover h ctxOpt record)

/-- `WithAttrs` (src/context_handler.go lines 236–238): a new handler
wrapping `h.innerHandler.WithAttrs(attrs)` with the same keys and default. -/
def CustomContextAttributeHandler.WithAttrs (h : CustomContextAttributeHandler)
    (attrs : List (String × GoVal)) : CustomContextAttributeHandler :=
  NewCustomContextAttributeHandler (h.innerHandler.WithAttrs attrs) h.keys h.ContextKeysDefault

/-- `WithGroup` (src/context_handler.go lines 242–244): a new handler
wrapping `h.innerHandler.WithGroup(name)` with the same keys and default. -/
def CustomContextAttributeHandler.WithGroup (h : CustomContextAttributeHandler)
    (name : String) : CustomContextAttributeHandler :=
  NewCustomContextAttributeHandler (h.innerHandler.WithGroup name) h.keys h.ContextKeysDefault

/-- The attributes a single loop iteration appends for one key: the per-key
contribution of the `Handle` loop body. -/
def contrib (d : GoVal) (ctx : Ctx) (k : GoVal) : Except String (List (String × GoVal)) :=
  match ctxValue ctx k with
  | .error m => .error m
  | .ok val =>
    if val = GoVal.nil then
      if d ≠ GoVal.nil then .ok [(format k, d)] else .ok []
    else .ok [(format k, val)]

/-- The concatenation of the per-key contributions over a key list, in key
order; an error in any lookup aborts. -/
def contribAll (d : GoVal) (ctx : Ctx) : List GoVal → Except String (List (String × GoVal))
  | [] => .ok []
  | k :: ks =>
    match contrib d ctx k with
    | .error m => .error m
    | .ok l =>
      match contribAll d ctx ks with
      | .error m => .error m
      | .ok ls => .ok (l ++ ls)

/-- Whether the loop appends an attribute for key `k` (non-nil hit, or miss
with a configured default). -/
def emits (d : GoVal) (ctx : Ctx) (k : GoVal) : Bool :=
  match ctxValue ctx k with
  | .error _ => false
  | .ok val => if val = GoVal.nil then decide (d ≠ GoVal.nil) else true

theorem augment_eq_contribAll (keys : List GoVal) (d : GoVal) (ctx : Ctx) (r : Record) :
    augment keys d ctx r = (contribAll d ctx keys).map (fun l => r ++ l) := by
  induction keys generalizing r with
  | nil => simp [augment, contribAll, Except.map]
  | cons k ks ih =>
      unfold augment contribAll contrib
      cases hv : ctxValue ctx k with
      | error m => simp [Except.map]
      | ok val =>
          by_cases hnil : val = GoVal.nil
          · subst hnil
            by_cases hd : d = GoVal.nil
            · subst hd
              simp only [if_pos rfl, ne_eq, not_true_eq_false, ite_false, ih]
              cases hrest : contribAll GoVal.nil ctx ks <;> simp [hrest, Except.map]
            · simp only [if_pos rfl, ne_eq, hd, not_false_eq_true, ite_true, ih]
              cases hrest : contribAll d ctx ks <;> simp [hrest, Except.map]
          · simp only [if_neg hnil, ih]
            cases hrest : contribAll d ctx ks <;> simp [hrest, Except.map]

theorem contrib_cases (d : GoVal) (ctx : Ctx) (k : GoVal) (l : List (String × GoVal))
    (h : contrib d ctx k = .ok l) :
    (emits d ctx k = true ∧ ∃ v, l = [(format k, v)]) ∨ (emits d ctx k = false ∧ l = []) := by
  unfold contrib at h
  unfold emits
  cases hv : ctxValue ctx k with
  | error m => rw [hv] at h; exact absurd h (by simp)
  | ok val =>
      rw [hv] at h
      by_cases hnil : val = GoVal.nil
      · subst hnil
        by_cases hd : d = GoVal.nil
        · subst hd
          simp only [ne_eq, not_true_eq_false, ite_false, if_pos rfl] at h
          right
          refine ⟨by simp, ?_⟩
          exact (Except.ok.injEq _ _).mp h.symm |>.symm ▸ by
            cases h with | refl => rfl
        · simp only [ne_eq, hd, not_false_eq_true, ite_true, if_pos rfl] at h
          left
          refine ⟨by simp [hd], ⟨d, ?_⟩⟩
          cases h with | refl => rfl
      · simp only [if_neg hnil] at h
        left
        refine ⟨by simp [hnil], ⟨val, ?_⟩⟩
        cases h with | refl => rfl

theorem contribAll_names (d : GoVal) (ctx : Ctx) (keys : List GoVal)
    (l : List (String × GoVal)) (h : contribAll d ctx keys = .ok l) :
    l.map Prod.fst = (keys.filter (fun k => emits d ctx k)).map format := by
  induction keys generalizing l with
  | nil =>
      unfold contribAll at h
      cases h with | refl => rfl
  | cons k ks ih =>
      unfold contribAll at h
      cases hc : contrib d ctx k with
      | error m => rw [hc] at h; exact absurd h (by simp)
      | ok lk =>
          rw [hc] at h
          cases hrest : contribAll d ctx ks with
          | error m => rw [hrest] at h; exact absurd h (by simp)
          | ok ls =>
              rw [hrest] at h
              have hl : l = lk ++ ls := by cases h with | refl => rfl
              subst hl
              rcases contrib_cases d ctx k lk hc with ⟨he, v, hv⟩ | ⟨he, hv⟩ <;>
                subst hv <;> simp [List.filter_cons, he, ih ls hrest]

theorem augment_bg (keys : List GoVal) (d : GoVal) (r : Record) :
    augment keys d [] r =
      .ok (r ++ (if d = GoVal.nil then [] else keys.map (fun k => (format k, d)))) := by
  induction keys generalizing r with
  | nil => simp [augment]
  | cons k ks ih =>
      have hv : ctxValue [] k = .ok GoVal.nil := rfl
      unfold augment
      rw [hv]
      by_cases hd : d = GoVal.nil
      · subst hd
        simp [ih]
      · simp [hd, ih]

theorem goEq_of_not_slice {a : GoVal} (b : GoVal) (h : isSlice a = false) :
    goEq a b = .ok (decide (a = b)) := by
  cases a <;> cases b <;> simp_all [goEq, isSlice]

theorem ctxValue_consNil (k : GoVal) (c : Ctx) (hk : isSlice k = false)
    (hc : ctxValue c k = .ok GoVal.nil) (k2 : GoVal) :
    ctxValue ((k, GoVal.nil) :: c) k2 = ctxValue c k2 := by
  simp only [ctxValue]
  rw [goEq_of_not_slice k2 hk]
  by_cases hkk : k = k2
  · subst hkk
    simp [hc]
  · simp [hkk]

theorem augment_congr (keys : List GoVal) (d : GoVal) (c1 c2 : Ctx) (r : Record)
    (h : ∀ k ∈ keys, ctxValue c1 k = ctxValue c2 k) :
    augment keys d c1 r = augment keys d c2 r := by
  induction keys generalizing r with
  | nil => rfl
  | cons k ks ih =>
      unfold augment
      rw [h k (by simp)]
      cases ctxValue c2 k with
      | error m => rfl
      | ok val =>
          have ih2 : ∀ r2 : Record, augment ks d c1 r2 = augment ks d c2 r2 :=
            fun r2 => ih r2 (fun k2 hk2 => h k2 (by simp [hk2]))
          by_cases hnil : val = GoVal.nil
          · subst hnil
            by_cases hd : d = GoVal.nil
            · subst hd
              simp [ih2]
            · simp [hd, ih2]
          · simp [hnil, ih2]

/-- Claim C1: for every handler, record and context (including the absent
context and contexts whose lookups fault), `Handle` returns an `Outcome`
(success or error); a fault (`RawResult.panicked`) raised by the body is
converted into the returned error `"panic in Handle: <msg>"` and is never
propagated.  The handler value is immutable in this embedding, so a faulting
call cannot affect subsequent `Handle` calls on the same handler. -/
theorem handle_total_and_recovers (h : CustomContextAttributeHandler) (c : Option Ctx)
    (r : Record) :
    (Handle h c r = Outcome.ok ∨ ∃ m, Handle h c r = Outcome.err m) ∧
    (∀ m, handleNoRecover h c r = RawResult.panicked m →
        Handle h c r = Outcome.err ("panic in Handle: " ++ m)) ∧
    (∀ m, handleNoRecover h c r = RawResult.err m → Handle h c r = Outcome.err m) ∧
    (handleNoRecover h c r = RawResult.ok → Handle h c r = Outcome.ok) := by
  cases hr : handleNoRecover h c r <;>
    simp [Handle, recoverResult, hr]

theorem handle_total_and_recovers_witness :
    Handle (NewCustomContextAttributeHandler (InnerHandler.sink (RawResult.panicked "boom"))
        [] GoVal.nil) none [] = Outcome.err ("panic in Handle: " ++ "boom") :=
  (handle_total_and_recovers
    (NewCustomContextAttributeHandler (InnerHandler.sink (RawResult.panicked "boom"))
      [] GoVal.nil) none []).2.1 "boom" rfl

/-- Claim C2: for a key whose context lookup yields not-found or null
(`GoVal.nil`), the loop appends exactly one attribute `(format key, default)`
when a default is configured, and nothing at all otherwise; `augment` is the
concatenation of these per-key contributions. -/
theorem handle_default_substitution :
    (∀ (keys : List GoVal) (d : GoVal) (ctx : Ctx) (r : Record),
        augment keys d ctx r = (contribAll d ctx keys).map (fun l => r ++ l)) ∧
    (∀ (d : GoVal) (ctx : Ctx) (k : GoVal), ctxValue ctx k = .ok GoVal.nil →
        contrib d ctx k = .ok (if d = GoVal.nil then [] else [(format k, d)])) := by
  refine ⟨augment_eq_contribAll, ?_⟩
  intro d ctx k hk
  unfold contrib
  rw [hk]
  by_cases hd : d = GoVal.nil <;> simp [hd]

theorem handle_default_substitution_witness :
    contrib (GoVal.str "unknown") [(GoVal.str "request_id", GoVal.str "req-1")]
        (GoVal.str "user_id") = .ok [("user_id", GoVal.str "unknown")] := by
  have h := handle_default_substitution.2 (GoVal.str "unknown")
    [(GoVal.str "request_id", GoVal.str "req-1")] (GoVal.str "user_id") rfl
  simpa using h

/-- Claim C3: a `Handle` call with the absent context behaves exactly as one
with the empty background context; over the background context the loop
appends the configured default (when one is configured) for every configured
key, and with a working wrapped handler the call succeeds. -/
theorem handle_nil_context_background (h : CustomContextAttributeHandler) (r : Record) :
    Handle h none r = Handle h (some []) r ∧
    (h.ContextKeysDefault ≠ GoVal.nil →
        augment h.keys h.ContextKeysDefault [] r =
          .ok (r ++ h.keys.map (fun k => (format k, h.ContextKeysDefault)))) ∧
    ((∀ rec : Record, innerHandle h.innerHandler rec = RawResult.ok) →
        Handle h none r = Outcome.ok) := by
  refine ⟨rfl, ?_, ?_⟩
  · intro hd
    rw [augment_bg]
    simp [hd]
  · intro hok
    unfold Handle handleNoRecover
    simp only [Option.getD]
    rw [augment_bg]
    simp [hok, recoverResult]

theorem handle_nil_context_background_witness :
    Handle (NewCustomContextAttributeHandler (InnerHandler.sink RawResult.ok)
        [GoVal.str "user_id"] (GoVal.str "unknown")) none [] = Outcome.ok ∧
    augment [GoVal.str "user_id"] (GoVal.str "unknown") [] [] =
      .ok [("user_id", GoVal.str "unknown")] := by
  have h := handle_nil_context_background
    (NewCustomContextAttributeHandler (InnerHandler.sink RawResult.ok)
      [GoVal.str "user_id"] (GoVal.str "unknown")) []
  refine ⟨h.2.2 (fun rec => rfl), ?_⟩
  have h2 := h.2.1 (by simp [NewCustomContextAttributeHandler])
  simpa [NewCustomContextAttributeHandler] using h2

/-- Claim C4: for a key present in the context with a non-null value, the
loop appends exactly the attribute `(format key, value)` with the looked-up
`GoVal` itself — its dynamic type (integer, string, ...) is preserved, not
stringified; `augment` is the concatenation of these per-key contributions. -/
theorem handle_value_fidelity :
    (∀ (keys : List GoVal) (d : GoVal) (ctx : Ctx) (r : Record),
        augment keys d ctx r = (contribAll d ctx keys).map (fun l => r ++ l)) ∧
    (∀ (d : GoVal) (ctx : Ctx) (k v : GoVal), ctxValue ctx k = .ok v → v ≠ GoVal.nil →
        contrib d ctx k = .ok [(format k, v)]) := by
  refine ⟨augment_eq_contribAll, ?_⟩
  intro d ctx k v hv hnv
  unfold contrib
  rw [hv]
  simp [hnv]

theorem handle_value_fidelity_witness :
    contrib (GoVal.str "unknown") [(GoVal.str "user_id", GoVal.int 42)]
        (GoVal.str "user_id") = .ok [("user_id", GoVal.int 42)] :=
  handle_value_fidelity.2 (GoVal.str "unknown") [(GoVal.str "user_id", GoVal.int 42)]
    (GoVal.str "user_id") (GoVal.int 42) rfl (by simp)

/-- Claim C5: a successful augmentation preserves the record's pre-existing
attributes as an unchanged prefix and appends the context-derived attributes
after them; the appended field names are exactly the emitting keys' string
representations in configured key order, for every context. -/
theorem handle_append_order (keys : List GoVal) (d : GoVal) (ctx : Ctx) (r res : Record)
    (h : augment keys d ctx r = .ok res) :
    ∃ l : List (String × GoVal), res = r ++ l ∧
      l.map Prod.fst = (keys.filter (fun k => emits d ctx k)).map format := by
  rw [augment_eq_contribAll] at h
  cases hc : contribAll d ctx keys with
  | error m => rw [hc] at h; exact absurd h (by simp [Except.map])
  | ok l =>
      rw [hc] at h
      simp only [Except.map] at h
      injection h with h2
      exact ⟨l, h2.symm, contribAll_names d ctx keys l hc⟩

theorem handle_append_order_witness :
    ∃ l : List (String × GoVal),
      ([("existing", GoVal.int 1), ("request_id", GoVal.str "req-1"),
          ("user_id", GoVal.str "unknown")] : Record) = [("existing", GoVal.int 1)] ++ l ∧
      l.map Prod.fst =
        (([GoVal.str "request_id", GoVal.str "user_id"]).filter
          (fun k => emits (GoVal.str "unknown")
            [(GoVal.str "request_id", GoVal.str "req-1")] k)).map format :=
  handle_append_order [GoVal.str "request_id", GoVal.str "user_id"] (GoVal.str "unknown")
    [(GoVal.str "request_id", GoVal.str "req-1")] [("existing", GoVal.int 1)]
    [("existing", GoVal.int 1), ("request_id", GoVal.str "req-1"),
      ("user_id", GoVal.str "unknown")] rfl

/-- Claim C7: binding a (comparable) key to the null value on top of a
context in which that key is effectively absent changes neither the
augmentation nor the result of `Handle` — "found but null" and "not found"
are behaviorally identical. -/
theorem null_binding_equals_absent (h : CustomContextAttributeHandler) (c : Ctx)
    (k : GoVal) (r : Record) (hk : isSlice k = false)
    (hc : ctxValue c k = .ok GoVal.nil) :
    augment h.keys h.ContextKeysDefault ((k, GoVal.nil) :: c) r =
      augment h.keys h.ContextKeysDefault c r ∧
    Handle h (some ((k, GoVal.nil) :: c)) r = Handle h (some c) r := by
  have haug : ∀ (keys : List GoVal) (d : GoVal) (r2 : Record),
      augment keys d ((k, GoVal.nil) :: c) r2 = augment keys d c r2 :=
    fun keys d r2 =>
      augment_congr keys d _ c r2 (fun k2 _ => ctxValue_consNil k c hk hc k2)
  refine ⟨haug _ _ _, ?_⟩
  unfold Handle handleNoRecover
  simp only [Option.getD]
  rw [haug]

theorem null_binding_equals_absent_witness :
    augment [GoVal.str "k"] GoVal.nil [(GoVal.str "k", GoVal.nil)] [] =
      augment [GoVal.str "k"] GoVal.nil [] [] ∧
    Handle (NewCustomContextAttributeHandler (InnerHandler.sink RawResult.ok)
        [GoVal.str "k"] GoVal.nil) (some [(GoVal.str "k", GoVal.nil)]) [] =
      Handle (NewCustomContextAttributeHandler (InnerHandler.sink RawResult.ok)
        [GoVal.str "k"] GoVal.nil) (some []) [] :=
  null_binding_equals_absent
    (NewCustomContextAttributeHandler (InnerHandler.sink RawResult.ok)
      [GoVal.str "k"] GoVal.nil) [] (GoVal.str "k") [] rfl rfl

/-- Claim C8: `WithAttrs` returns a new handler wrapping
`innerHandler.WithAttrs(attrs)` with the same key set and default, and
`WithGroup` symmetrically wraps `innerHandler.WithGroup(name)`; both are pure
constructions in this embedding, so the receiver is not mutated. -/
theorem withAttrs_withGroup_rewrap (h : CustomContextAttributeHandler)
    (attrs : List (String × GoVal)) (name : String) :
    (h.WithAttrs attrs).innerHandler = h.innerHandler.WithAttrs attrs ∧
    (h.WithAttrs attrs).keys = h.keys ∧
    (h.WithAttrs attrs).ContextKeysDefault = h.ContextKeysDefault ∧
    (h.WithGroup name).innerHandler = h.innerHandler.WithGroup name ∧
    (h.WithGroup name).keys = h.keys ∧
    (h.WithGroup name).ContextKeysDefault = h.ContextKeysDefault :=
  ⟨rfl, rfl, rfl, rfl, rfl, rfl⟩

/-! ## Configuration (src/lib/types/config.go and src/lib/config.go)

The v2 `LogFormat`, `DevFlavor` and `OutputType` are safe-enum structs whose
zero value is distinct from every named member; they are embedded as
inductives with an explicit `unset` member for the zero value.  `Level` is a
nil-able `slog.Leveler` (`Option Int`), `OutputStream` a nil-able writer. -/

inductive LogFormatV where
  | unset | json | text | otel
deriving DecidableEq, Repr

inductive DevFlavorV where
  | unset | tint | slogor | devslog
deriving DecidableEq, Repr

inductive OutputTypeV where
  | unset | console | otel | fanout
deriving DecidableEq, Repr

/-- `OutputType.String()`; the zero value renders as an undefined name
distinct from the three member names. -/
def outputString : OutputTypeV → String
  | .unset => "undefined"
  | .console => "console"
  | .otel => "otel"
  | .fanout => "fanout"

/-- `types.FieldError`: field name, offending value, reason. -/
structure FieldError where
  Field : String
  Value : GoVal
  Reason : String
deriving DecidableEq, Repr

/-- `types.ValidationError`: the collected field errors. -/
structure ValidationError where
  Errors : List FieldError
deriving DecidableEq, Repr

/-- `types.Config` (src/lib/types/config.go lines 126–139). -/
structure Config where
  Level : Option Int
  Format : LogFormatV
  DevMode : Bool
  DevFlavor : DevFlavorV
  OutputStream : Option String
  OtelTracingEnabled : Bool
  OtelLoggerName : String
  Output : OutputTypeV
  OtelServiceName : String
  SetAsDefault : Bool
  ContextKeys : List GoVal
  ContextKeysDefault : GoVal
deriving DecidableEq, Repr

/-- `Config.Validate` (src/lib/types/config.go lines 158–211): collect field
errors for a nil level, an unset output, missing OTEL names in OTEL or
fanout mode, and a context-keys default without context keys; return them
all, or nil when there are none. -/
def Config.Validate (c : Config) : Option ValidationError :=
  let fieldErrors :=
    (if c.Level = none then
      [({ Field := "Level", Value := GoVal.nil, Reason := "cannot be nil" } : FieldError)]
    else []) ++
    (if c.Output = OutputTypeV.unset then
      [({ Field := "Output", Value := GoVal.typed "OutputType" (outputString c.Output),
          Reason := "must be specified (Console, OTEL, or Fanout)" } : FieldError)]
    else []) ++
    (if outputString c.Output = outputString OutputTypeV.otel ∨
        outputString c.Output = outputString OutputTypeV.fanout then
      (if c.OtelLoggerName = "" then
        [({ Field := "OtelLoggerName", Value := GoVal.str c.OtelLoggerName,
            Reason := "required when Output is OTEL or Fanout" } : FieldError)]
      else []) ++
      (if c.OtelServiceName = "" then
        [({ Field := "OtelServiceName", Value := GoVal.str c.OtelServiceName,
            Reason := "required when Output is OTEL or Fanout" } : FieldError)]
      else [])
    else []) ++
    (if c.ContextKeysDefault ≠ GoVal.nil ∧ c.ContextKeys = [] then
      [({ Field := "ContextKeysDefault", Value := c.ContextKeysDefault,
          Reason := "cannot be set without defining ContextKeys" } : FieldError)]
    else [])
  if fieldErrors = [] then none else some { Errors := fieldErrors }

/-! `MergeConfig` (src/lib/config.go lines 54–98) runs a sequence of
conditional field assignments on the stored configuration; each statement is
embedded as one function from the current configuration and the override to
the updated configuration, composed in source order. -/

def mergeFormat (c override : Config) : Config :=
  if c.Format ≠ LogFormatV.unset then { c with Format := override.Format } else c

def mergeDevFlavor (c override : Config) : Config :=
  if c.DevFlavor ≠ DevFlavorV.unset then { c with DevFlavor := override.DevFlavor } else c

def mergeOutput (c override : Config) : Config :=
  if override.Output ≠ OutputTypeV.unset then { c with Output := override.Output } else c

def mergeLevel (c override : Config) : Config :=
  if override.Level ≠ none then { c with Level := override.Level } else c

def mergeOutputStream (c override : Config) : Config :=
  if override.OutputStream ≠ none then { c with OutputStream := override.OutputStream } else c

def mergeOtelLoggerName (c override : Config) : Config :=
  if override.OtelLoggerName ≠ "" then { c with OtelLoggerName := override.OtelLoggerName } else c

def mergeOtelServiceName (c override : Config) : Config :=
  if override.OtelServiceName ≠ "" then { c with OtelServiceName := override.OtelServiceName } else c

def mergeDevMode (c override : Config) : Config :=
  if override.DevMode && (override.DevMode != c.DevMode) then
    { c with DevMode := override.DevMode } else c

def mergeOtelTracing (c override : Config) : Config :=
  if override.OtelTracingEnabled && (override.OtelTracingEnabled != c.OtelTracingEnabled) then
    { c with OtelTracingEnabled := override.OtelTracingEnabled } else c

def mergeSetAsDefault (c override : Config) : Config :=
  if override.SetAsDefault && (override.SetAsDefault != c.SetAsDefault) then
    { c with SetAsDefault := override.SetAsDefault } else c

def mergeContextKeys (c override : Config) : Config :=
  if override.ContextKeys.length > 0 then { c with ContextKeys := override.ContextKeys } else c

def mergeContextKeysDefault (c override : Config) : Config :=
  if override.ContextKeysDefault ≠ GoVal.nil then
    { c with ContextKeysDefault := override.ContextKeysDefault } else c

/-- `MergeConfig` (src/lib/config.go lines 54–98): the twelve conditional
assignments in source order, applied to the stored configuration. -/
def MergeConfig (libConfig override : Config) : Config :=
  mergeContextKeysDefault
    (mergeContextKeys
      (mergeSetAsDefault
        (mergeOtelTracing
          (mergeDevMode
            (mergeOtelServiceName
              (mergeOtelLoggerName
                (mergeOutputStream
                  (mergeLevel
                    (mergeOutput
                      (mergeDevFlavor
                        (mergeFormat libConfig override) override) override) override)
                  override) override) override) override) override) override) override)
    override

@[simp] theorem mergeFormat_DevMode (c o : Config) : (mergeFormat c o).DevMode = c.DevMode := by
  unfold mergeFormat; split <;> rfl

@[simp] theorem mergeFormat_OtelTracing (c o : Config) :
    (mergeFormat c o).OtelTracingEnabled = c.OtelTracingEnabled := by
  unfold mergeFormat; split <;> rfl

@[simp] theorem mergeFormat_SetAsDefault (c o : Config) :
    (mergeFormat c o).SetAsDefault = c.SetAsDefault := by
  unfold mergeFormat; split <;> rfl

@[simp] theorem mergeDevFlavor_DevMode (c o : Config) :
    (mergeDevFlavor c o).DevMode = c.DevMode := by
  unfold mergeDevFlavor; split <;> rfl

@[simp] theorem mergeDevFlavor_OtelTracing (c o : Config) :
    (mergeDevFlavor c o).OtelTracingEnabled = c.OtelTracingEnabled := by
  unfold mergeDevFlavor; split <;> rfl

@[simp] theorem mergeDevFlavor_SetAsDefault (c o : Config) :
    (mergeDevFlavor c o).SetAsDefault = c.SetAsDefault := by
  unfold mergeDevFlavor; split <;> rfl

@[simp] theorem mergeOutput_DevMode (c o : Config) : (mergeOutput c o).DevMode = c.DevMode := by
  unfold mergeOutput; split <;> rfl

@[simp] theorem mergeOutput_OtelTracing (c o : Config) :
    (mergeOutput c o).OtelTracingEnabled = c.OtelTracingEnabled := by
  unfold mergeOutput; split <;> rfl

@[simp] theorem mergeOutput_SetAsDefault (c o : Config) :
    (mergeOutput c o).SetAsDefault = c.SetAsDefault := by
  unfold mergeOutput; split <;> rfl

@[simp] theorem mergeLevel_DevMode (c o : Config) : (mergeLevel c o).DevMode = c.DevMode := by
  unfold mergeLevel; split <;> rfl

@[simp] theorem mergeLevel_OtelTracing (c o : Config) :
    (mergeLevel c o).OtelTracingEnabled = c.OtelTracingEnabled := by
  unfold mergeLevel; split <;> rfl

@[simp] theorem mergeLevel_SetAsDefault (c o : Config) :
    (mergeLevel c o).SetAsDefault = c.SetAsDefault := by
  unfold mergeLevel; split <;> rfl

@[simp] theorem mergeOutputStream_DevMode (c o : Config) :
    (mergeOutputStream c o).DevMode = c.DevMode := by
  unfold mergeOutputStream; split <;> rfl

@[simp] theorem mergeOutputStream_OtelTracing (c o : Config) :
    (mergeOutputStream c o).OtelTracingEnabled = c.OtelTracingEnabled := by
  unfold mergeOutputStream; split <;> rfl

@[simp] theorem mergeOutputStream_SetAsDefault (c o : Config) :
    (mergeOutputStream c o).SetAsDefault = c.SetAsDefault := by
  unfold mergeOutputStream; split <;> rfl

@[simp] theorem mergeOtelLoggerName_DevMode (c o : Config) :
    (mergeOtelLoggerName c o).DevMode = c.DevMode := by
  unfold mergeOtelLoggerName; split <;> rfl

@[simp] theorem mergeOtelLoggerName_OtelTracing (c o : Config) :
    (mergeOtelLoggerName c o).OtelTracingEnabled = c.OtelTracingEnabled := by
  unfold mergeOtelLoggerName; split <;> rfl

@[simp] theorem mergeOtelLoggerName_SetAsDefault (c o : Config) :
    (mergeOtelLoggerName c o).SetAsDefault = c.SetAsDefault := by
  unfold mergeOtelLoggerName; split <;> rfl

@[simp] theorem mergeOtelServiceName_DevMode (c o : Config) :
    (mergeOtelServiceName c o).DevMode = c.DevMode := by
  unfold mergeOtelServiceName; split <;> rfl

@[simp] theorem mergeOtelServiceName_OtelTracing (c o : Config) :
    (mergeOtelServiceName c o).OtelTracingEnabled = c.OtelTracingEnabled := by
  unfold mergeOtelServiceName; split <;> rfl

@[simp] theorem mergeOtelServiceName_SetAsDefault (c o : Config) :
    (mergeOtelServiceName c o).SetAsDefault = c.SetAsDefault := by
  unfold mergeOtelServiceName; split <;> rfl

@[simp] theorem mergeDevMode_DevMode (c o : Config) :
    (mergeDevMode c o).DevMode = (c.DevMode || o.DevMode) := by
  unfold mergeDevMode
  cases hc : c.DevMode <;> cases ho : o.DevMode <;> simp [hc, ho]

@[simp] theorem mergeDevMode_OtelTracing (c o : Config) :
    (mergeDevMode c o).OtelTracingEnabled = c.OtelTracingEnabled := by
  unfold mergeDevMode; split <;> rfl

@[simp] theorem mergeDevMode_SetAsDefault (c o : Config) :
    (mergeDevMode c o).SetAsDefault = c.SetAsDefault := by
  unfold mergeDevMode; split <;> rfl

@[simp] theorem mergeOtelTracing_DevMode (c o : Config) :
    (mergeOtelTracing c o).DevMode = c.DevMode := by
  unfold mergeOtelTracing; split <;> rfl

@[simp] theorem mergeOtelTracing_OtelTracing (c o : Config) :
    (mergeOtelTracing c o).OtelTracingEnabled =
      (c.OtelTracingEnabled || o.OtelTracingEnabled) := by
  unfold mergeOtelTracing
  cases hc : c.OtelTracingEnabled <;> cases ho : o.OtelTracingEnabled <;> simp [hc, ho]

@[simp] theorem mergeOtelTracing_SetAsDefault (c o : Config) :
    (mergeOtelTracing c o).SetAsDefault = c.SetAsDefault := by
  unfold mergeOtelTracing; split <;> rfl

@[simp] theorem mergeSetAsDefault_DevMode (c o : Config) :
    (mergeSetAsDefault c o).DevMode = c.DevMode := by
  unfold mergeSetAsDefault; split <;> rfl

@[simp] theorem mergeSetAsDefault_OtelTracing (c o : Config) :
    (mergeSetAsDefault c o).OtelTracingEnabled = c.OtelTracingEnabled := by
  unfold mergeSetAsDefault; split <;> rfl

@[simp] theorem mergeSetAsDefault_SetAsDefault (c o : Config) :
    (mergeSetAsDefault c o).SetAsDefault = (c.SetAsDefault || o.SetAsDefault) := by
  unfold mergeSetAsDefault
  cases hc : c.SetAsDefault <;> cases ho : o.SetAsDefault <;> simp [hc, ho]

@[simp] theorem mergeContextKeys_DevMode (c o : Config) :
    (mergeContextKeys c o).DevMode = c.DevMode := by
  unfold mergeContextKeys; split <;> rfl

@[simp] theorem mergeContextKeys_OtelTracing (c o : Config) :
    (mergeContextKeys c o).OtelTracingEnabled = c.OtelTracingEnabled := by
  unfold mergeContextKeys; split <;> rfl

@[simp] theorem mergeContextKeys_SetAsDefault (c o : Config) :
    (mergeContextKeys c o).SetAsDefault = c.SetAsDefault := by
  unfold mergeContextKeys; split <;> rfl

@[simp] theorem mergeContextKeysDefault_DevMode (c o : Config) :
    (mergeContextKeysDefault c o).DevMode = c.DevMode := by
  unfold mergeContextKeysDefault; split <;> rfl

@[simp] theorem mergeContextKeysDefault_OtelTracing (c o : Config) :
    (mergeContextKeysDefault c o).OtelTracingEnabled = c.OtelTracingEnabled := by
  unfold mergeContextKeysDefault; split <;> rfl

@[simp] theorem mergeContextKeysDefault_SetAsDefault (c o : Config) :
    (mergeContextKeysDefault c o).SetAsDefault = c.SetAsDefault := by
  unfold mergeContextKeysDefault; split <;> rfl

/-- Claim C10: for each boolean configuration field, the merged value is the
logical OR of the stored value and the override value — an override set to
false never clears a stored true. -/
theorem mergeConfig_bool_or (libConfig override : Config) :
    (MergeConfig libConfig override).DevMode = (libConfig.DevMode || override.DevMode) ∧
    (MergeConfig libConfig override).OtelTracingEnabled =
      (libConfig.OtelTracingEnabled || override.OtelTracingEnabled) ∧
    (MergeConfig libConfig override).SetAsDefault =
      (libConfig.SetAsDefault || override.SetAsDefault) := by
  refine ⟨?_, ?_, ?_⟩ <;> simp [MergeConfig]

/-- Claim C9: `Config.Validate` rejects a configuration whose
`ContextKeysDefault` is non-nil while `ContextKeys` is empty with a
`ValidationError` naming the `ContextKeysDefault` field, even though the
context-attribute handler itself treats an empty key set with a default as a
valid no-op passthrough. -/
theorem validate_rejects_default_without_keys (c : Config)
    (h1 : c.ContextKeysDefault ≠ GoVal.nil) (h2 : c.ContextKeys = []) :
    (∃ ve : ValidationError, c.Validate = some ve ∧
        ∃ fe, fe ∈ ve.Errors ∧ fe.Field = "ContextKeysDefault") ∧
    (∀ (ctx : Ctx) (r : Record), augment [] c.ContextKeysDefault ctx r = .ok r) ∧
    (∀ (ih : InnerHandler) (copt : Option Ctx) (r : Record),
        Handle (NewCustomContextAttributeHandler ih [] c.ContextKeysDefault) copt r =
          recoverResult (innerHandle ih r)) := by
  refine ⟨?_, fun ctx r => rfl, fun ih copt r => rfl⟩
  simp only [Config.Validate]
  rw [if_pos (show c.ContextKeysDefault ≠ GoVal.nil ∧ c.ContextKeys = [] from ⟨h1, h2⟩)]
  rw [if_neg (by simp)]
  refine ⟨_, rfl, ?_⟩
  refine ⟨({ Field := "ContextKeysDefault", Value := c.ContextKeysDefault, Reason := "cannot be set without defining ContextKeys" } : FieldError), ?_, rfl⟩
  simp

theorem validate_rejects_default_without_keys_witness :
    ∃ ve : ValidationError,
      (Config.Validate
        { Level := some 0, Format := LogFormatV.json, DevMode := false,
          DevFlavor := DevFlavorV.tint, OutputStream := some "stdout",
          OtelTracingEnabled := true, OtelLoggerName := "my/pkg/name",
          Output := OutputTypeV.console, OtelServiceName := "my-service",
          SetAsDefault := true, ContextKeys := [],
          ContextKeysDefault := GoVal.str "unknown" }) = some ve ∧
      ∃ fe, fe ∈ ve.Errors ∧ fe.Field = "ContextKeysDefault" :=
  (validate_rejects_default_without_keys
    { Level := some 0, Format := LogFormatV.json, DevMode := false,
      DevFlavor := DevFlavorV.tint, OutputStream := some "stdout",
      OtelTracingEnabled := true, OtelLoggerName := "my/pkg/name",
      Output := OutputTypeV.console, OtelServiceName := "my-service",
      SetAsDefault := true, ContextKeys := [],
      ContextKeysDefault := GoVal.str "unknown" } (by simp) rfl).1

/-! ## Initialization orchestrator handler selection

Modelled from the spec: the v2 initialization orchestrator (`Init`) is not
present under src/ — only its tests (logger_test.go), its callers
(examples/) and the `InitError` stage taxonomy (src/lib/types/config.go)
are.  Spec section 4.2: build the base handler via the factory selected by
the configured output mode; on telemetry-handler construction failure, fall
back to the console handler factory and continue; tag hard failures with the
failing stage. -/

/-- An initialization-stage error: the failing stage name and the cause. -/
structure InitStageError where
  stage : String
  cause : String
deriving DecidableEq, Repr

/-- The base handler the orchestrator ends up wiring: a console handler, a
telemetry handler, or a fan-out over both. -/
inductive BuiltHandler where
  | fromConsole (h : InnerHandler)
  | fromOtel (h : InnerHandler)
  | fanout (consoleH otelH : InnerHandler)
deriving DecidableEq, Repr

/-- Modelled from the spec: handler selection of the missing `Init`
orchestrator.  The console and telemetry factories are represented by their
outcomes; in telemetry (OTEL) mode a telemetry failure falls back to the
console factory, and in fan-out mode a telemetry failure degrades to the
console handler alone; only a console-factory failure is a hard
"handler_creation" error. -/
def buildHandler (out : OutputTypeV) (consoleRes otelRes : Except String InnerHandler) :
    Except InitStageError BuiltHandler :=
  match out with
  | .console =>
    match consoleRes with
    | .ok hC => .ok (.fromConsole hC)
    | .error m => .error { stage := "handler_creation", cause := m }
  | .otel =>
    match otelRes with
    | .ok hO => .ok (.fromOtel hO)
    | .error _ =>
      match consoleRes with
      | .ok hC => .ok (.fromConsole hC)
      | .error m => .error { stage := "handler_creation", cause := m }
  | .fanout =>
    match consoleRes with
    | .error m => .error { stage := "handler_creation", cause := m }
    | .ok hC =>
      match otelRes with
      | .ok hO => .ok (.fanout hC hO)
      | .error _ => .ok (.fromConsole hC)
  | .unset => .error { stage := "validation", cause := "invalid output mode" }

/-- Claim C6 (spec-modelled): with a telemetry (OTEL or fan-out) output
selection, a telemetry-factory failure makes the orchestrator fall back to
the console handler factory and continue, so selection succeeds whenever the
console factory does — initialization never fails solely because telemetry
setup failed. -/
theorem init_falls_back_to_console (out : OutputTypeV) (hC : InnerHandler) (em : String)
    (hout : out = OutputTypeV.otel ∨ out = OutputTypeV.fanout) :
    buildHandler out (Except.ok hC) (Except.error em) =
      Except.ok (BuiltHandler.fromConsole hC) := by
  rcases hout with h | h <;> subst h <;> rfl

theorem init_falls_back_to_console_witness :
    buildHandler OutputTypeV.otel (Except.ok (InnerHandler.sink RawResult.ok))
        (Except.error "otel collector unreachable") =
      Except.ok (BuiltHandler.fromConsole (InnerHandler.sink RawResult.ok)) :=
  init_falls_back_to_console OutputTypeV.otel (InnerHandler.sink RawResult.ok)
    "otel collector unreachable" (Or.inl rfl)

end LoggerGo
